import Mathlib

/-!
Verification of the lightning-ir / tide data pipeline.

Shallow embedding of:
- `tide/datamodule.py` (`RunDataset`, `TriplesDataset`, `MVRDataModule.collate_fn`),
- `tide/data.py` (`Sample`, `Batch`, `ScoredDocPair`),
- `lightning_ir/models/mvr/model.py` (`MVRModel.score`, `MVRModel.forward`,
  `MVRModel.scoring_mask`),
- `lightning_ir/lightning_utils/validation_utils.py` (`create_run_from_scores`),
- the sparse document aggregation routine of `mvr/searcher.py` (modelled from the
  spec, see `sparse_doc_aggregation`).

Tensors are modelled as lists of rationals, missing values (NaN in pandas or
numpy) as `Option`, and fallible operations return `Except`.
-/

/-! ## Data model (`tide/data.py`) -/

/-- `Sample` named tuple from `tide/data.py`: one query with its candidate
documents, per-document target scores and optional raw relevance grades. -/
structure Sample where
  query_id : String
  query : String
  doc_ids : List String
  docs : List String
  targets : List ℚ
  relevance : Option (List ℚ) := none
deriving DecidableEq, Repr

/-- `Batch` named tuple from `tide/data.py`.  The tokenized query/doc encodings
are produced by an external tokenizer; the model keeps the raw text lists that
are fed to it in their place (`queries`, `docs`). -/
structure Batch where
  query_ids : List String
  queries : List String
  doc_ids : List (List String)
  docs : List String
  targets : List ℚ
  relevance : Option (List (List ℚ)) := none
deriving DecidableEq, Repr

/-- One record yielded by `docpairs_iter` (`ScoredDocPair` in `tide/data.py`).
`KDDocPairs.docpairs_iter` always fills both scores; other docpair record types
lack the score fields, which `TriplesDataset.__iter__` probes with `hasattr`.
A missing field is modelled as `none`. -/
structure ScoredDocPair where
  query_id : String
  doc_id_a : String
  doc_id_b : String
  score_a : Option ℚ
  score_b : Option ℚ
deriving DecidableEq, Repr

/-! ## `RunDataset` (`tide/datamodule.py`) -/

/-- A raw row of the run file (`pd.read_csv` with `usecols=[0, 2, 3, 4]`);
every row read from the file carries a numeric rank. -/
structure RawRunRow where
  query_id : String
  doc_id : String
  rank : Int
  score : ℚ
deriving DecidableEq, Repr

/-- A row of the merged run/qrels table (after the outer join): any of rank,
score and relevance may be missing (`NaN`), as the outer join fills rows that
appear in only one of the two tables. -/
structure RunRow where
  doc_id : String
  rank : Option ℚ
  score : Option ℚ
  relevance : Option ℚ
deriving DecidableEq, Repr

/-- `targets` field of `RunDatasetConfig`: which column supplies the training
target of a document. -/
inductive TargetField
  | relevance
  | rank
deriving DecidableEq, Repr

/-- `sampling_strategy` field of `RunDatasetConfig`. -/
inductive SamplingStrategy
  | single_relevant
  | top
deriving DecidableEq, Repr

/-- `RunDatasetConfig` named tuple from `tide/datamodule.py`. -/
structure RunDatasetConfig where
  targets : TargetField
  depth : Int
  sample_size : Nat
  sampling_strategy : SamplingStrategy
deriving DecidableEq, Repr

/-- Column lookup `group[config.targets]` on a merged row. -/
def RunRow.targetValue (r : RunRow) : TargetField → Option ℚ
  | .relevance => r.relevance
  | .rank => r.rank

/-- Lines 54-56 of `RunDataset.__init__`:
`if self.depth != -1: self.run = self.run[self.run["rank"] <= config.depth]`,
applied to the raw run table before the outer join with the qrels. -/
def RunDataset.filterDepth (run : List RawRunRow) (depth : Int) : List RawRunRow :=
  if depth ≠ -1 then run.filter (fun r => r.rank ≤ depth) else run

/-! ## `MVRModel` (`lightning_ir/models/mvr/model.py`) -/

/-- Pooling strategies accepted by `MVRModel.scoring_mask`. -/
inductive PoolingStrategy
  | first
  | mean
  | maxp
  | sump
deriving DecidableEq, Repr

/-- The slice of `MVRConfig` that `MVRModel.scoring_mask` reads. -/
structure MVRConfig where
  num_viewer_tokens : Option Nat
deriving DecidableEq, Repr

/-- Input ids / attention mask of a tokenized batch (`BatchEncoding`): a list of
token-id rows; `shape[0]` is the batch size. -/
def BatchEncodingIds := List (List Nat)

/-- `MVRModel.scoring_mask`.  When a pooling strategy is given the result is a
fresh all-true mask whose width is `config.num_viewer_tokens` (or `1` when that
is not configured); otherwise the method defers to the superclass mask, an
external capability modelled as `none`. -/
def MVRModel.scoring_mask (config : MVRConfig) (input_ids : List (List Nat))
    (expansion : Bool) (pooling_strategy : Option PoolingStrategy)
    (mask_scoring_input_ids : Option (List Nat)) : Option (List (List Bool)) :=
  let _ := expansion
  let _ := mask_scoring_input_ids
  match pooling_strategy with
  | some _ =>
    match config.num_viewer_tokens with
    | some n => some (List.replicate input_ids.length (List.replicate n true))
    | none => some (List.replicate input_ids.length (List.replicate 1 true))
  | none => none

/-- `MVRModel.score` (lines 78-100): destructures the pair returned by the
superclass `scoring_function` as `scores, _` and returns only `scores`.
`scoring_function` itself lives in the external `BiEncoderModel`; it is passed
in as a parameter returning the pair (per-document scores, per-token scores). -/
def MVRModel.score (query_embeddings : α) (doc_embeddings : β) (num_docs : γ)
    (scoring_function : α → β → γ → List ℚ × List (List ℚ)) : List ℚ :=
  (scoring_function query_embeddings doc_embeddings num_docs).1

/-- The fields of `MVROutput` that `MVRModel.forward` fills from the score
result: `scores=scores[0]` and `viewer_token_scores=scores[1]`.  Indexing a
1-D tensor yields a scalar element, modelled with `Option ℚ` (`none` when the
index is out of range). -/
structure MVROutput where
  scores : Option ℚ
  viewer_token_scores : Option ℚ
deriving DecidableEq, Repr

/-- `MVRModel.forward` (lines 27-44), scoring path only: it calls
`self.score(...)` and builds `MVROutput(scores=scores[0], ...,
viewer_token_scores=scores[1])`. -/
def MVRModel.forward (query_encoding : α) (doc_encoding : β) (num_docs : γ)
    (scoring_function : α → β → γ → List ℚ × List (List ℚ)) : MVROutput :=
  let scores := MVRModel.score query_encoding doc_encoding num_docs scoring_function
  { scores := scores[0]?, viewer_token_scores := scores[1]? }

/-- A concrete scoring function: two documents with scores `[5, 7]` and a
2×2 token-level score tensor `[[1, 2], [3, 4]]`. -/
def sfPair : Unit → Unit → Unit → List ℚ × List (List ℚ) :=
  fun _ _ _ => ([5, 7], [[1, 2], [3, 4]])

/-! ## Theorems -/

/-- C7: every run-file row whose rank exceeds the configured depth is dropped
(and only those rows), while a depth of `-1` disables the filtering entirely. -/
theorem runDataset_filterDepth_correct (run : List RawRunRow) (depth : Int) :
    RunDataset.filterDepth run (-1) = run ∧
    (depth ≠ -1 →
      ∀ r, r ∈ RunDataset.filterDepth run depth ↔ r ∈ run ∧ r.rank ≤ depth) := by
  constructor
  · simp [RunDataset.filterDepth]
  · intro hd r
    simp [RunDataset.filterDepth, hd, List.mem_filter]

/-- Witness for C7: a two-row run, depth 1: the rank-2 row is dropped; with
depth -1 nothing is dropped. -/
theorem runDataset_filterDepth_correct_witness :
    ((1 : Int) ≠ -1) ∧
      (RunDataset.filterDepth [⟨"q", "d1", 1, 3⟩, ⟨"q", "d2", 2, 2⟩] (-1)
          = [⟨"q", "d1", 1, 3⟩, ⟨"q", "d2", 2, 2⟩] ∧
        (⟨"q", "d2", 2, 2⟩ ∈ RunDataset.filterDepth
            [⟨"q", "d1", 1, 3⟩, ⟨"q", "d2", 2, 2⟩] 1 ↔
          (⟨"q", "d2", 2, 2⟩ : RawRunRow) ∈
              [(⟨"q", "d1", 1, 3⟩ : RawRunRow), ⟨"q", "d2", 2, 2⟩] ∧
            (⟨"q", "d2", 2, 2⟩ : RawRunRow).rank ≤ 1)) :=
  ⟨by decide,
    (runDataset_filterDepth_correct [⟨"q", "d1", 1, 3⟩, ⟨"q", "d2", 2, 2⟩] 1).1,
    (runDataset_filterDepth_correct [⟨"q", "d1", 1, 3⟩, ⟨"q", "d2", 2, 2⟩] 1).2
      (by decide) _⟩

/-- C1, evaluation at the failing input: `MVRModel.score` returns only the
per-document score tensor `[5, 7]` — not the pair `([5, 7], [[1, 2], [3, 4]])`
produced by `scoring_function` — so `forward`'s indexing at `[0]` and `[1]`
slices that tensor: `scores` becomes the scalar `5` and `viewer_token_scores`
the scalar `7`, instead of the two tensors. -/
theorem mvrModel_score_drops_token_scores :
    MVRModel.score () () () sfPair = [5, 7] ∧
    (sfPair () () ()).2 = [[1, 2], [3, 4]] ∧
    (MVRModel.forward () () () sfPair).scores = some 5 ∧
    (MVRModel.forward () () () sfPair).viewer_token_scores = some 7 := by
  refine ⟨rfl, rfl, rfl, rfl⟩

/-- C9: with a pooling strategy specified, `scoring_mask` returns an all-true
mask with one row per batch item and `num_viewer_tokens` (default 1) columns,
independent of the encoding's actual sequence length. -/
theorem mvrModel_scoring_mask_pooled (config : MVRConfig)
    (input_ids : List (List Nat)) (expansion : Bool)
    (pooling_strategy : Option PoolingStrategy)
    (mask_scoring_input_ids : Option (List Nat)) (p : PoolingStrategy)
    (hp : pooling_strategy = some p) :
    ∃ mask,
      MVRModel.scoring_mask config input_ids expansion pooling_strategy
          mask_scoring_input_ids = some mask ∧
      mask.length = input_ids.length ∧
      (∀ row ∈ mask,
        row.length = config.num_viewer_tokens.getD 1 ∧ ∀ b ∈ row, b = true) ∧
      (∀ ids2 : List (List Nat), ids2.length = input_ids.length →
        MVRModel.scoring_mask config ids2 expansion pooling_strategy
            mask_scoring_input_ids =
          MVRModel.scoring_mask config input_ids expansion pooling_strategy
            mask_scoring_input_ids) := by
  subst hp
  cases hnv : config.num_viewer_tokens with
  | none =>
    refine ⟨List.replicate input_ids.length (List.replicate 1 true), ?_, ?_, ?_, ?_⟩
    · simp only [MVRModel.scoring_mask, hnv]
    · simp
    · intro row hrow
      rw [List.eq_of_mem_replicate hrow]
      constructor
      · simp [hnv]
      · intro b hb
        exact List.eq_of_mem_replicate hb
    · intro ids2 h2
      simp only [MVRModel.scoring_mask, hnv, h2]
  | some n =>
    refine ⟨List.replicate input_ids.length (List.replicate n true), ?_, ?_, ?_, ?_⟩
    · simp only [MVRModel.scoring_mask, hnv]
    · simp
    · intro row hrow
      rw [List.eq_of_mem_replicate hrow]
      constructor
      · simp [hnv]
      · intro b hb
        exact List.eq_of_mem_replicate hb
    · intro ids2 h2
      simp only [MVRModel.scoring_mask, hnv, h2]

/-- Witness for C9: a configured viewer-token count of 4, a batch of two
sequences of different lengths: the mask exists with the stated shape. -/
theorem mvrModel_scoring_mask_pooled_witness :
    (some PoolingStrategy.first = some PoolingStrategy.first) ∧
    (∃ mask,
      MVRModel.scoring_mask ⟨some 4⟩ [[101, 7, 102], [101, 5, 9, 11, 102]] false
          (some PoolingStrategy.first) none = some mask ∧
      mask.length = [[101, 7, 102], [101, 5, 9, 11, 102]].length ∧
      (∀ row ∈ mask,
        row.length = (some 4).getD 1 ∧ ∀ b ∈ row, b = true) ∧
      (∀ ids2 : List (List Nat),
        ids2.length = [[101, 7, 102], [101, 5, 9, 11, 102]].length →
        MVRModel.scoring_mask ⟨some 4⟩ ids2 false (some PoolingStrategy.first)
            none =
          MVRModel.scoring_mask ⟨some 4⟩ [[101, 7, 102], [101, 5, 9, 11, 102]]
            false (some PoolingStrategy.first) none)) :=
  ⟨rfl, mvrModel_scoring_mask_pooled ⟨some 4⟩ [[101, 7, 102], [101, 5, 9, 11, 102]]
    false (some PoolingStrategy.first) none PoolingStrategy.first rfl⟩

/-- `TriplesDataset.__iter__` (`tide/datamodule.py` lines 111-127): for each
record, scores default to `(1, 0)` when the record lacks them (`hasattr`), the
document texts and query text are resolved through the external stores
(`docsGet`, `queriesGet`), and a two-document `Sample` without relevance is
yielded. -/
def TriplesDataset.iterSamples (docsGet : String → String)
    (queriesGet : String → String) (records : List ScoredDocPair) : List Sample :=
  records.map fun doc =>
    { query_id := doc.query_id
      query := queriesGet doc.query_id
      doc_ids := [doc.doc_id_a, doc.doc_id_b]
      docs := [docsGet doc.doc_id_a, docsGet doc.doc_id_b]
      targets := [doc.score_a.getD 1, doc.score_b.getD 0]
      relevance := none }

/-- C8: iterating the triples dataset yields one `Sample` per record, with
exactly two documents, no relevance field, targets equal to the record's
explicit scores when present and `(1, 0)` when absent. -/
theorem triplesDataset_iter_correct (docsGet queriesGet : String → String)
    (records : List ScoredDocPair) (i : Nat) (hi : i < records.length) :
    (TriplesDataset.iterSamples docsGet queriesGet records).length
        = records.length ∧
    ((TriplesDataset.iterSamples docsGet queriesGet records).getD i
        ⟨"", "", [], [], [], none⟩).doc_ids
      = [(records.getD i ⟨"", "", "", none, none⟩).doc_id_a,
          (records.getD i ⟨"", "", "", none, none⟩).doc_id_b] ∧
    ((TriplesDataset.iterSamples docsGet queriesGet records).getD i
        ⟨"", "", [], [], [], none⟩).doc_ids.length = 2 ∧
    ((TriplesDataset.iterSamples docsGet queriesGet records).getD i
        ⟨"", "", [], [], [], none⟩).relevance = none ∧
    ((TriplesDataset.iterSamples docsGet queriesGet records).getD i
        ⟨"", "", [], [], [], none⟩).targets
      = [((records.getD i ⟨"", "", "", none, none⟩).score_a).getD 1,
          ((records.getD i ⟨"", "", "", none, none⟩).score_b).getD 0] ∧
    (∀ sa sb : ℚ, (records.getD i ⟨"", "", "", none, none⟩).score_a = some sa →
      (records.getD i ⟨"", "", "", none, none⟩).score_b = some sb →
      ((TriplesDataset.iterSamples docsGet queriesGet records).getD i
          ⟨"", "", [], [], [], none⟩).targets = [sa, sb]) ∧
    ((records.getD i ⟨"", "", "", none, none⟩).score_a = none →
      (records.getD i ⟨"", "", "", none, none⟩).score_b = none →
      ((TriplesDataset.iterSamples docsGet queriesGet records).getD i
          ⟨"", "", [], [], [], none⟩).targets = [1, 0]) := by
  have hi' : i < (TriplesDataset.iterSamples docsGet queriesGet records).length := by
    simpa [TriplesDataset.iterSamples] using hi
  have hget : (TriplesDataset.iterSamples docsGet queriesGet records).getD i
      ⟨"", "", [], [], [], none⟩ =
      ({ query_id := records[i].query_id
         query := queriesGet records[i].query_id
         doc_ids := [records[i].doc_id_a, records[i].doc_id_b]
         docs := [docsGet records[i].doc_id_a, docsGet records[i].doc_id_b]
         targets := [records[i].score_a.getD 1, records[i].score_b.getD 0]
         relevance := none } : Sample) := by
    rw [List.getD_eq_getElem _ _ hi']
    simp [TriplesDataset.iterSamples]
  have hr : records.getD i ⟨"", "", "", none, none⟩ = records[i] :=
    List.getD_eq_getElem _ _ hi
  rw [hget, hr]
  refine ⟨by simp [TriplesDataset.iterSamples], rfl, rfl, rfl, rfl, ?_, ?_⟩
  · intro sa sb ha hb
    simp [ha, hb]
  · intro ha hb
    simp [ha, hb]

/-- Witness for C8: a single record with explicit scores `(0.8, 0.2)`; the
produced sample preserves them exactly; evaluation also confirms the default
`(1, 0)` on a record without scores. -/
theorem triplesDataset_iter_correct_witness :
    (0 < ([(⟨"q", "da", "db", some (4/5), some (1/5)⟩ : ScoredDocPair)]).length) ∧
    ((TriplesDataset.iterSamples (fun _ => "") (fun _ => "")
        [⟨"q", "da", "db", some (4/5), some (1/5)⟩]).getD 0
        ⟨"", "", [], [], [], none⟩).targets = [4/5, 1/5] ∧
    ((TriplesDataset.iterSamples (fun _ => "") (fun _ => "")
        [⟨"q", "da", "db", some (4/5), some (1/5)⟩]).getD 0
        ⟨"", "", [], [], [], none⟩).relevance = none :=
  ⟨by decide, by
    have h := triplesDataset_iter_correct (fun _ => "") (fun _ => "")
      [⟨"q", "da", "db", some (4/5), some (1/5)⟩] 0 (by decide)
    exact h.2.2.2.2.2.1 (4/5) (1/5) rfl rfl, by
    have h := triplesDataset_iter_correct (fun _ => "") (fun _ => "")
      [⟨"q", "da", "db", some (4/5), some (1/5)⟩] 0 (by decide)
    exact h.2.2.2.1⟩

/-! ## Sparse document aggregation (`mvr/searcher.py`) -/

/-- Minimum-reduction step used by the scatter-reduce: combine an existing
bucket value (`none` = NaN sentinel) with an incoming score. -/
def minStep (o : Option ℚ) (s : ℚ) : Option ℚ :=
  some (match o with
    | none => s
    | some cur => min cur s)

/-- One scatter update: write the reduced value into the bucket named by the
pair's document index. -/
def scatterMinUpdate (acc : List (Option ℚ)) (p : ℚ × Nat) : List (Option ℚ) :=
  acc.set p.2 (minStep (acc.getD p.2 none) p.1)

/-- Modelled from the spec: `sparse_doc_aggregation` lives in `mvr/searcher.py`,
which is not among the provided sources — only its test
(`src/tests/test_callbacks.py::test_sparse_doc_aggregation`) is.  Per spec
section 4.3 the routine takes an (N, K) score matrix and an (N, K) doc-index
matrix and scatter-reduces each row's (score, doc-index) pairs into `max_doc`
buckets with a minimum reduction; buckets that receive no entry keep the NaN
sentinel, modelled as `none`. -/
def sparse_doc_aggregation (token_scores : List (List ℚ))
    (doc_idcs : List (List Nat)) (max_doc : Nat) : List (List (Option ℚ)) :=
  List.zipWith
    (fun row idxs => (row.zip idxs).foldl scatterMinUpdate
      (List.replicate max_doc none))
    token_scores doc_idcs

/-- The scores of a row that fall into bucket `m`. -/
def bucketScores (row : List ℚ) (idxs : List Nat) (m : Nat) : List ℚ :=
  (row.zip idxs).filterMap (fun p => if p.2 = m then some p.1 else none)

/-- Folding `minStep` from an initial bucket value. -/
def minFold (o : Option ℚ) (l : List ℚ) : Option ℚ :=
  l.foldl minStep o

theorem getD_set_self (l : List (Option ℚ)) (i : Nat) (v : Option ℚ)
    (h : i < l.length) : (l.set i v).getD i none = v := by
  simp [List.getD_eq_getElem?_getD, List.getElem?_set_self h]

theorem getD_set_ne (l : List (Option ℚ)) (i j : Nat) (v : Option ℚ)
    (h : i ≠ j) : (l.set i v).getD j none = l.getD j none := by
  simp [List.getD_eq_getElem?_getD, List.getElem?_set_ne h]

theorem foldl_scatterMinUpdate_getD (pairs : List (ℚ × Nat))
    (acc : List (Option ℚ)) (m : Nat) (hm : m < acc.length) :
    (pairs.foldl scatterMinUpdate acc).getD m none
      = minFold (acc.getD m none)
          (pairs.filterMap (fun p => if p.2 = m then some p.1 else none)) := by
  induction pairs generalizing acc with
  | nil => rfl
  | cons p rest ih =>
    obtain ⟨s, j⟩ := p
    rw [List.foldl_cons]
    by_cases hj : j = m
    · subst hj
      rw [ih (scatterMinUpdate acc (s, j)) (by simpa [scatterMinUpdate] using hm)]
      have hset : (scatterMinUpdate acc (s, j)).getD j none
          = minStep (acc.getD j none) s := getD_set_self _ _ _ hm
      rw [hset]
      simp [minFold]
    · rw [ih (scatterMinUpdate acc (s, j)) (by simpa [scatterMinUpdate] using hm)]
      have hset : (scatterMinUpdate acc (s, j)).getD m none = acc.getD m none :=
        getD_set_ne _ _ _ _ hj
      rw [hset]
      simp [hj]

theorem minFold_some_eq (l : List ℚ) (c : ℚ) :
    minFold (some c) l = some (l.foldl min c) := by
  induction l generalizing c with
  | nil => rfl
  | cons a l ih =>
    show minFold (minStep (some c) a) l = _
    rw [show minStep (some c) a = some (min c a) from rfl, ih]
    rfl

theorem minFold_none_eq_min? (l : List ℚ) : minFold none l = l.min? := by
  cases l with
  | nil => rfl
  | cons a l =>
    show minFold (minStep none a) l = _
    rw [show minStep none a = some a from rfl, minFold_some_eq, List.min?_cons']

/-- C2: for every (N, K) token-score matrix and doc-index matrix with indices
below `max_doc`, entry `[i, m]` of the aggregation equals the minimum of
`token_scores[i, j]` over all `j` with `doc_indices[i, j] = m`, and is the
missing sentinel (`none`, i.e. NaN) when no such `j` exists — both captured by
`(bucketScores row idxs m).min?`. -/
theorem sparse_doc_aggregation_correct (token_scores : List (List ℚ))
    (doc_idcs : List (List Nat)) (max_doc : Nat)
    (hN : token_scores.length = doc_idcs.length)
    (hK : ∀ i, i < token_scores.length →
      (token_scores.getD i []).length = (doc_idcs.getD i []).length)
    (hM : ∀ rowIdcs ∈ doc_idcs, ∀ idx ∈ rowIdcs, idx < max_doc)
    (i m : Nat) (hi : i < token_scores.length) (hm : m < max_doc) :
    ((sparse_doc_aggregation token_scores doc_idcs max_doc).getD i []).getD m none
      = (bucketScores (token_scores.getD i []) (doc_idcs.getD i []) m).min? := by
  have hi2 : i < doc_idcs.length := hN ▸ hi
  have hiz : i < (sparse_doc_aggregation token_scores doc_idcs max_doc).length := by
    simp only [sparse_doc_aggregation, List.length_zipWith]
    omega
  have hrow : (sparse_doc_aggregation token_scores doc_idcs max_doc).getD i []
      = ((token_scores.getD i []).zip (doc_idcs.getD i [])).foldl
          scatterMinUpdate (List.replicate max_doc none) := by
    rw [List.getD_eq_getElem _ _ hiz]
    simp only [sparse_doc_aggregation, List.getElem_zipWith]
    rw [List.getD_eq_getElem _ _ hi, List.getD_eq_getElem _ _ hi2]
  rw [hrow, foldl_scatterMinUpdate_getD _ _ _ (by simpa using hm)]
  have hinit : (List.replicate max_doc (none : Option ℚ)).getD m none = none := by
    simp [List.getD_eq_getElem?_getD, List.getElem?_replicate, hm]
  rw [hinit, minFold_none_eq_min?, bucketScores]

/-- Witness for C2: the spec's example — row `[5, 3, 9]` with buckets
`[1, 1, 0]` and `max_doc = 2` yields `[9, 3]` (bucket 0 gets the single score
9, bucket 1 the minimum of 5 and 3). -/
theorem sparse_doc_aggregation_correct_witness :
    (([[(5 : ℚ), 3, 9]] : List (List ℚ)).length = ([[1, 1, 0]] : List (List Nat)).length ∧
      (∀ i, i < ([[(5 : ℚ), 3, 9]] : List (List ℚ)).length →
        (([[(5 : ℚ), 3, 9]] : List (List ℚ)).getD i []).length
          = (([[1, 1, 0]] : List (List Nat)).getD i []).length) ∧
      (∀ rowIdcs ∈ ([[1, 1, 0]] : List (List Nat)), ∀ idx ∈ rowIdcs, idx < 2)) ∧
    ((sparse_doc_aggregation [[5, 3, 9]] [[1, 1, 0]] 2).getD 0 []).getD 0 none
        = (bucketScores [5, 3, 9] [1, 1, 0] 0).min? ∧
    ((sparse_doc_aggregation [[5, 3, 9]] [[1, 1, 0]] 2).getD 0 []).getD 1 none
        = (bucketScores [5, 3, 9] [1, 1, 0] 1).min? ∧
    sparse_doc_aggregation [[5, 3, 9]] [[1, 1, 0]] 2 = [[some 9, some 3]] :=
  ⟨⟨by decide, by decide, by decide⟩,
    sparse_doc_aggregation_correct [[5, 3, 9]] [[1, 1, 0]] 2 (by decide) (by decide)
      (by decide) 0 0 (by decide) (by decide),
    sparse_doc_aggregation_correct [[5, 3, 9]] [[1, 1, 0]] 2 (by decide) (by decide)
      (by decide) 0 1 (by decide) (by decide),
    by decide⟩

/-! ## `MVRDataModule.collate_fn` (`tide/datamodule.py` lines 219-261) -/

/-- `torch.nn.utils.rnn.pad_sequence(relevances, batch_first=True)`: stacks the
rows into a 2-D tensor, padding each with the default value 0 to the longest
row's length. -/
def pad_sequence (rows : List (List ℚ)) : List (List ℚ) :=
  let maxLen := (rows.map List.length).foldr max 0
  rows.map (fun r => r ++ List.replicate (maxLen - r.length) 0)

/-- `MVRDataModule.collate_fn`: walks the samples appending query ids and
texts, per-sample doc-id tuples, extending the flat doc-text and target lists,
and collecting the relevance tuples of those samples that carry one; the
relevance tensor is the padded stack if any tuple was collected, else `None`.
The tokenizer calls (`encode_queries`/`encode_docs`) are external; the text
lists fed to them are kept in the `Batch` in place of the encodings. -/
def MVRDataModule.collate_fn (samples : List Sample) : Batch :=
  let query_ids := samples.map (·.query_id)
  let queries := samples.map (·.query)
  let doc_ids := samples.map (·.doc_ids)
  let docs := samples.flatMap (·.docs)
  let targets := samples.flatMap (·.targets)
  let relevances := samples.filterMap (·.relevance)
  let relevance := if relevances.isEmpty then none else some (pad_sequence relevances)
  { query_ids := query_ids, queries := queries, doc_ids := doc_ids,
    docs := docs, targets := targets, relevance := relevance }

/-- Split a flat list back into chunks of the given sizes (the inverse
direction of the collator's flattening). -/
def splitByCounts : List α → List Nat → List (List α)
  | _, [] => []
  | l, n :: ns => l.take n :: splitByCounts (l.drop n) ns

theorem splitByCounts_flatten (ll : List (List α)) :
    splitByCounts ll.flatten (ll.map List.length) = ll := by
  induction ll with
  | nil => rfl
  | cons x xs ih =>
    simp only [List.flatten_cons, List.map_cons, splitByCounts,
      List.take_left, List.drop_left]
    rw [ih]

/-- C5: collating a list of samples and then splitting the batch's flattened
doc ids and its flat target tensor by the per-query document counts recovers
each original sample's doc-id tuple and target tuple in order. -/
theorem collate_fn_roundtrip (samples : List Sample)
    (h : ∀ s ∈ samples, s.targets.length = s.doc_ids.length) :
    splitByCounts (MVRDataModule.collate_fn samples).doc_ids.flatten
        (samples.map (fun s => s.doc_ids.length)) = samples.map (·.doc_ids) ∧
    splitByCounts (MVRDataModule.collate_fn samples).targets
        (samples.map (fun s => s.doc_ids.length)) = samples.map (·.targets) := by
  constructor
  · have hcounts : samples.map (fun s => s.doc_ids.length)
        = (samples.map (·.doc_ids)).map List.length := by
      rw [List.map_map]
      rfl
    have hdocids : (MVRDataModule.collate_fn samples).doc_ids
        = samples.map (·.doc_ids) := rfl
    rw [hdocids, hcounts, splitByCounts_flatten]
  · have hcounts : samples.map (fun s => s.doc_ids.length)
        = (samples.map (·.targets)).map List.length := by
      rw [List.map_map]
      exact List.map_congr_left (fun s hs => ((h s hs).symm : _))
    have htargets : (MVRDataModule.collate_fn samples).targets
        = (samples.map (·.targets)).flatten := by
      simp only [MVRDataModule.collate_fn, List.flatMap]
    rw [htargets, hcounts, splitByCounts_flatten]

/-- Witness for C5: two samples (two docs and one doc); splitting the collated
batch recovers the original doc-id and target tuples. -/
theorem collate_fn_roundtrip_witness :
    (∀ s ∈ [(⟨"q1", "a", ["d1", "d2"], ["x", "y"], [3, 1], none⟩ : Sample),
        ⟨"q2", "b", ["d3"], ["z"], [2], some [1]⟩],
      s.targets.length = s.doc_ids.length) ∧
    (splitByCounts (MVRDataModule.collate_fn
          [(⟨"q1", "a", ["d1", "d2"], ["x", "y"], [3, 1], none⟩ : Sample),
            ⟨"q2", "b", ["d3"], ["z"], [2], some [1]⟩]).doc_ids.flatten
        ([(⟨"q1", "a", ["d1", "d2"], ["x", "y"], [3, 1], none⟩ : Sample),
            ⟨"q2", "b", ["d3"], ["z"], [2], some [1]⟩].map
          (fun s => s.doc_ids.length))
      = [(⟨"q1", "a", ["d1", "d2"], ["x", "y"], [3, 1], none⟩ : Sample),
          ⟨"q2", "b", ["d3"], ["z"], [2], some [1]⟩].map (·.doc_ids) ∧
    splitByCounts (MVRDataModule.collate_fn
          [(⟨"q1", "a", ["d1", "d2"], ["x", "y"], [3, 1], none⟩ : Sample),
            ⟨"q2", "b", ["d3"], ["z"], [2], some [1]⟩]).targets
        ([(⟨"q1", "a", ["d1", "d2"], ["x", "y"], [3, 1], none⟩ : Sample),
            ⟨"q2", "b", ["d3"], ["z"], [2], some [1]⟩].map
          (fun s => s.doc_ids.length))
      = [(⟨"q1", "a", ["d1", "d2"], ["x", "y"], [3, 1], none⟩ : Sample),
          ⟨"q2", "b", ["d3"], ["z"], [2], some [1]⟩].map (·.targets)) :=
  ⟨by decide, collate_fn_roundtrip
    [⟨"q1", "a", ["d1", "d2"], ["x", "y"], [3, 1], none⟩,
      ⟨"q2", "b", ["d3"], ["z"], [2], some [1]⟩] (by decide)⟩

theorem le_foldr_max (l : List Nat) (x : Nat) (hx : x ∈ l) :
    x ≤ l.foldr max 0 := by
  induction l with
  | nil => cases hx
  | cons a l ih =>
    rcases List.mem_cons.mp hx with h | h
    · subst h
      exact Nat.le_max_left _ _
    · exact Nat.le_trans (ih h) (Nat.le_max_right _ _)

/-- C6: if at least one sample carries a relevance tuple, the batch's relevance
field stacks the carried tuples padded with 0 to the longest carried tuple's
length; if no sample carries one, the field is `None` (absent), never an
all-zero tensor. -/
theorem collate_fn_relevance (samples : List Sample) :
    ((∀ s ∈ samples, s.relevance = none) →
      (MVRDataModule.collate_fn samples).relevance = none) ∧
    ((∃ s ∈ samples, s.relevance ≠ none) →
      ∃ M, (MVRDataModule.collate_fn samples).relevance = some M ∧
        M.length = (samples.filterMap (·.relevance)).length ∧
        (∀ i, i < M.length →
          (M.getD i []).length
            = ((samples.filterMap (·.relevance)).map List.length).foldr max 0 ∧
          (M.getD i []).take ((samples.filterMap (·.relevance)).getD i []).length
            = (samples.filterMap (·.relevance)).getD i [] ∧
          (M.getD i []).drop ((samples.filterMap (·.relevance)).getD i []).length
            = List.replicate
                (((samples.filterMap (·.relevance)).map List.length).foldr max 0
                  - ((samples.filterMap (·.relevance)).getD i []).length) 0)) := by
  constructor
  · intro hall
    have hnil : samples.filterMap (·.relevance) = [] :=
      List.filterMap_eq_nil_iff.mpr hall
    simp only [MVRDataModule.collate_fn, hnil]
    rfl
  · intro hex
    have hne : samples.filterMap (·.relevance) ≠ [] := by
      intro hnil
      obtain ⟨s, hs, hrel⟩ := hex
      exact hrel (List.filterMap_eq_nil_iff.mp hnil s hs)
    refine ⟨pad_sequence (samples.filterMap (·.relevance)), ?_, ?_, ?_⟩
    · simp only [MVRDataModule.collate_fn]
      rw [if_neg (by simpa [List.isEmpty_iff] using hne)]
    · simp [pad_sequence]
    · intro i hi
      have hi' : i < (samples.filterMap (·.relevance)).length := by
        simpa [pad_sequence] using hi
      have hrow : (pad_sequence (samples.filterMap (·.relevance))).getD i []
          = (samples.filterMap (·.relevance)).getD i [] ++
            List.replicate
              (((samples.filterMap (·.relevance)).map List.length).foldr max 0
                - ((samples.filterMap (·.relevance)).getD i []).length) 0 := by
        have hip : i < (pad_sequence (samples.filterMap (·.relevance))).length := hi
        rw [List.getD_eq_getElem _ _ hip, List.getD_eq_getElem _ _ hi']
        simp only [pad_sequence, List.getElem_map]
      have hle : ((samples.filterMap (·.relevance)).getD i []).length
          ≤ ((samples.filterMap (·.relevance)).map List.length).foldr max 0 := by
        apply le_foldr_max
        rw [List.getD_eq_getElem _ _ hi']
        exact List.mem_map_of_mem _ (List.getElem_mem hi')
      refine ⟨?_, ?_, ?_⟩
      · rw [hrow]
        simp only [List.length_append, List.length_replicate]
        omega
      · rw [hrow, List.take_left]
      · rw [hrow, List.drop_left]

/-- Witness for C6: one sample with relevance `[1, 0, 2]`, one carrying none;
the batch stacks and pads; the existence hypothesis is discharged
concretely. -/
theorem collate_fn_relevance_witness :
    (∃ s ∈ [(⟨"q1", "a", ["d1"], ["x"], [3], some [1, 0, 2]⟩ : Sample),
        ⟨"q2", "b", ["d2"], ["y"], [2], none⟩], s.relevance ≠ none) ∧
    (∃ M, (MVRDataModule.collate_fn
          [(⟨"q1", "a", ["d1"], ["x"], [3], some [1, 0, 2]⟩ : Sample),
            ⟨"q2", "b", ["d2"], ["y"], [2], none⟩]).relevance = some M ∧
      M.length = ([(⟨"q1", "a", ["d1"], ["x"], [3], some [1, 0, 2]⟩ : Sample),
            ⟨"q2", "b", ["d2"], ["y"], [2], none⟩].filterMap (·.relevance)).length ∧
      (∀ i, i < M.length →
        (M.getD i []).length
          = (([(⟨"q1", "a", ["d1"], ["x"], [3], some [1, 0, 2]⟩ : Sample),
                ⟨"q2", "b", ["d2"], ["y"], [2], none⟩].filterMap
                  (·.relevance)).map List.length).foldr max 0 ∧
        (M.getD i []).take (([(⟨"q1", "a", ["d1"], ["x"], [3], some [1, 0, 2]⟩ : Sample),
              ⟨"q2", "b", ["d2"], ["y"], [2], none⟩].filterMap
                (·.relevance)).getD i []).length
          = ([(⟨"q1", "a", ["d1"], ["x"], [3], some [1, 0, 2]⟩ : Sample),
              ⟨"q2", "b", ["d2"], ["y"], [2], none⟩].filterMap
                (·.relevance)).getD i [] ∧
        (M.getD i []).drop (([(⟨"q1", "a", ["d1"], ["x"], [3], some [1, 0, 2]⟩ : Sample),
              ⟨"q2", "b", ["d2"], ["y"], [2], none⟩].filterMap
                (·.relevance)).getD i []).length
          = List.replicate
              ((([(⟨"q1", "a", ["d1"], ["x"], [3], some [1, 0, 2]⟩ : Sample),
                    ⟨"q2", "b", ["d2"], ["y"], [2], none⟩].filterMap
                      (·.relevance)).map List.length).foldr max 0
                - (([(⟨"q1", "a", ["d1"], ["x"], [3], some [1, 0, 2]⟩ : Sample),
                    ⟨"q2", "b", ["d2"], ["y"], [2], none⟩].filterMap
                      (·.relevance)).getD i []).length) 0)) :=
  ⟨by decide,
    (collate_fn_relevance
      [⟨"q1", "a", ["d1"], ["x"], [3], some [1, 0, 2]⟩,
        ⟨"q2", "b", ["d2"], ["y"], [2], none⟩]).2 (by decide)⟩

/-! ## `RunDataset.__getitem__` (`tide/datamodule.py` lines 81-104) -/

/-- `RunDataset.__getitem__`, acting on the merged, rank-sorted group of rows
of one query.  pandas `DataFrame.sample(n)` draws `n` rows uniformly at random
without replacement; that randomness is abstracted into the `chooseRel` (draw
one row) and `chooseNonRel` (draw `n` rows) parameters.  `.sample(1)` on an
empty frame — a query with no relevant document — raises `ValueError`,
modelled as `.error`, as does a negative requested size (`sample_size = 0`).
The target lookup `group.set_index("doc_id").loc[list(doc_ids),
config.targets].fillna(0)` returns, for doc ids unique within the group, the
target column of the selected rows in their order. -/
def RunDataset.getItem (query_id query : String) (docsGet : String → String)
    (config : RunDatasetConfig) (chooseRel : List RunRow → RunRow)
    (chooseNonRel : List RunRow → Nat → List RunRow)
    (group : List RunRow) : Except String Sample :=
  match config.sampling_strategy with
  | .single_relevant =>
    let relevantPool := group.filter (fun r => decide (0 < r.relevance.getD 0))
    if relevantPool = [] then
      .error "a must be greater than 0 unless no samples are taken"
    else
      let nonRelevantPool :=
        group.filter (fun r => r.relevance.getD 0 == 0 && r.rank.isSome)
      let sampleNonRelevant : Int :=
        min ((config.sample_size : Int) - 1) (nonRelevantPool.length : Int)
      if sampleNonRelevant < 0 then
        .error "A negative number of rows requested"
      else
        let rows := chooseRel relevantPool ::
          chooseNonRel nonRelevantPool sampleNonRelevant.toNat
        let doc_ids := rows.map (·.doc_id)
        let docs := doc_ids.map docsGet
        let targets := rows.map (fun r => (r.targetValue config.targets).getD 0)
        .ok { query_id := query_id, query := query, doc_ids := doc_ids,
              docs := docs, targets := targets, relevance := none }
  | .top =>
    let relevance := group.map (fun r => r.relevance.getD 0)
    let sampled := group.take config.sample_size
    let doc_ids := sampled.map (·.doc_id)
    let docs := doc_ids.map docsGet
    let targets := sampled.map (fun r => (r.targetValue config.targets).getD 0)
    .ok { query_id := query_id, query := query, doc_ids := doc_ids,
          docs := docs, targets := targets, relevance := some relevance }

/-- C3 counterexample: "top" sampling with `sample_size = 3` on a query group
of 5 ranked docs with relevance grades `[1, 0, 0, 2, 0]` in rank order.  The
sampled doc ids and targets are the first 3 rows as claimed, but the sample's
relevance tuple is computed from the whole group *before* `head(sample_size)`:
it is `(1, 0, 0, 2, 0)` — not `(1, 0, 0)` aligned with the 3 sampled docs. -/
theorem runDataset_getItem_top_relevance_not_truncated :
    RunDataset.getItem "q" "t" (fun _ => "")
        ⟨.relevance, -1, 3, .top⟩ (fun l => l.headD ⟨"", none, none, none⟩)
        (fun l n => l.take n)
        [⟨"d1", some 1, some 9, some 1⟩, ⟨"d2", some 2, some 8, some 0⟩,
          ⟨"d3", some 3, some 7, some 0⟩, ⟨"d4", some 4, some 6, some 2⟩,
          ⟨"d5", some 5, some 5, some 0⟩]
      = .ok ⟨"q", "t", ["d1", "d2", "d3"], ["", "", ""], [1, 0, 0],
          some [1, 0, 0, 2, 0]⟩ ∧
    (some [(1 : ℚ), 0, 0, 2, 0] : Option (List ℚ)) ≠ some [1, 0, 0] := by
  constructor
  · rfl
  · decide

/-- C3 amended: with the "top" strategy the accessor returns the first
`sample_size` rows in rank order together with their targets (missing values
imputed 0); the raw relevance tuple (missing imputed 0) covers all rows of the
query's merged group — not only the sampled ones — and its first `sample_size`
entries align with the sampled documents. -/
theorem runDataset_getItem_top_correct (query_id query : String)
    (docsGet : String → String) (config : RunDatasetConfig)
    (chooseRel : List RunRow → RunRow)
    (chooseNonRel : List RunRow → Nat → List RunRow) (group : List RunRow)
    (hstrat : config.sampling_strategy = .top) :
    ∃ s, RunDataset.getItem query_id query docsGet config chooseRel chooseNonRel
        group = .ok s ∧
      s.doc_ids = (group.take config.sample_size).map (·.doc_id) ∧
      s.targets = (group.take config.sample_size).map
        (fun r => (r.targetValue config.targets).getD 0) ∧
      s.relevance = some (group.map (fun r => r.relevance.getD 0)) ∧
      (s.relevance.getD []).length = group.length ∧
      (s.relevance.getD []).take config.sample_size
        = (group.take config.sample_size).map (fun r => r.relevance.getD 0) := by
  refine ⟨Sample.mk query_id query
      ((group.take config.sample_size).map (·.doc_id))
      (((group.take config.sample_size).map (·.doc_id)).map docsGet)
      ((group.take config.sample_size).map
        (fun r => (r.targetValue config.targets).getD 0))
      (some (group.map (fun r => r.relevance.getD 0))),
    ?_, rfl, rfl, rfl, by simp, ?_⟩
  · simp only [RunDataset.getItem, hstrat]
  · show (group.map (fun r => r.relevance.getD 0)).take config.sample_size = _
    rw [List.map_take]

/-- Witness for C3 (amended): the 5-row group with grades `[1, 0, 0, 2, 0]`
and `sample_size = 3`: the relevance tuple is the full `[1, 0, 0, 2, 0]`, its
first 3 entries `[1, 0, 0]` aligned with the sampled docs. -/
theorem runDataset_getItem_top_correct_witness :
    (⟨.relevance, -1, 3, .top⟩ : RunDatasetConfig).sampling_strategy = .top ∧
    (∃ s, RunDataset.getItem "q" "t" (fun _ => "")
        ⟨.relevance, -1, 3, .top⟩ (fun l => l.headD ⟨"", none, none, none⟩)
        (fun l n => l.take n)
        [⟨"d1", some 1, some 9, some 1⟩, ⟨"d2", some 2, some 8, some 0⟩,
          ⟨"d3", some 3, some 7, some 0⟩, ⟨"d4", some 4, some 6, some 2⟩,
          ⟨"d5", some 5, some 5, some 0⟩] = .ok s ∧
      s.doc_ids = (([⟨"d1", some 1, some 9, some 1⟩, ⟨"d2", some 2, some 8, some 0⟩,
          ⟨"d3", some 3, some 7, some 0⟩, ⟨"d4", some 4, some 6, some 2⟩,
          ⟨"d5", some 5, some 5, some 0⟩] : List RunRow).take 3).map (·.doc_id) ∧
      s.targets = (([⟨"d1", some 1, some 9, some 1⟩, ⟨"d2", some 2, some 8, some 0⟩,
          ⟨"d3", some 3, some 7, some 0⟩, ⟨"d4", some 4, some 6, some 2⟩,
          ⟨"d5", some 5, some 5, some 0⟩] : List RunRow).take 3).map
        (fun r => (r.targetValue .relevance).getD 0) ∧
      s.relevance = some (([⟨"d1", some 1, some 9, some 1⟩, ⟨"d2", some 2, some 8, some 0⟩,
          ⟨"d3", some 3, some 7, some 0⟩, ⟨"d4", some 4, some 6, some 2⟩,
          ⟨"d5", some 5, some 5, some 0⟩] : List RunRow).map
            (fun r => r.relevance.getD 0)) ∧
      (s.relevance.getD []).length = ([⟨"d1", some 1, some 9, some 1⟩,
          ⟨"d2", some 2, some 8, some 0⟩, ⟨"d3", some 3, some 7, some 0⟩,
          ⟨"d4", some 4, some 6, some 2⟩,
          ⟨"d5", some 5, some 5, some 0⟩] : List RunRow).length ∧
      (s.relevance.getD []).take 3
        = (([⟨"d1", some 1, some 9, some 1⟩, ⟨"d2", some 2, some 8, some 0⟩,
          ⟨"d3", some 3, some 7, some 0⟩, ⟨"d4", some 4, some 6, some 2⟩,
          ⟨"d5", some 5, some 5, some 0⟩] : List RunRow).take 3).map
            (fun r => r.relevance.getD 0)) :=
  ⟨rfl, runDataset_getItem_top_correct "q" "t" (fun _ => "")
    ⟨.relevance, -1, 3, .top⟩ (fun l => l.headD ⟨"", none, none, none⟩)
    (fun l n => l.take n)
    [⟨"d1", some 1, some 9, some 1⟩, ⟨"d2", some 2, some 8, some 0⟩,
      ⟨"d3", some 3, some 7, some 0⟩, ⟨"d4", some 4, some 6, some 2⟩,
      ⟨"d5", some 5, some 5, some 0⟩] rfl⟩

set_option maxHeartbeats 1000000 in
/-- C4: with the "single_relevant" strategy, a sample is built from exactly one
uniformly drawn document with relevance > 0, plus at most `sample_size - 1`
documents drawn without replacement from the ranked pool with relevance
missing or zero (clamped to the available count); the sample's relevance field
is `none`; and a query with no relevant document raises a runtime error —
never an empty or relevant-free sample.  The drawing functions are abstract,
constrained only to pick a member (resp. a fixed-size sub-multiset). -/
theorem runDataset_getItem_single_relevant (query_id query : String)
    (docsGet : String → String) (config : RunDatasetConfig)
    (chooseRel : List RunRow → RunRow)
    (chooseNonRel : List RunRow → Nat → List RunRow) (group : List RunRow)
    (hstrat : config.sampling_strategy = .single_relevant)
    (hRel : ∀ l : List RunRow, l ≠ [] → chooseRel l ∈ l)
    (hNR : ∀ (l : List RunRow) (n : Nat), n ≤ l.length →
      (chooseNonRel l n).length = n ∧ List.Subperm (chooseNonRel l n) l) :
    (group.filter (fun r => decide (0 < r.relevance.getD 0)) = [] →
      ∃ e, RunDataset.getItem query_id query docsGet config chooseRel
        chooseNonRel group = .error e) ∧
    (∀ s, RunDataset.getItem query_id query docsGet config chooseRel
        chooseNonRel group = .ok s →
      s.relevance = none ∧
      ∃ rel nonRel,
        rel ∈ group.filter (fun r => decide (0 < r.relevance.getD 0)) ∧
        List.Subperm nonRel (group.filter
          (fun r => r.relevance.getD 0 == 0 && r.rank.isSome)) ∧
        nonRel.length = min (config.sample_size - 1)
          (group.filter
            (fun r => r.relevance.getD 0 == 0 && r.rank.isSome)).length ∧
        s.doc_ids = (rel :: nonRel).map (·.doc_id) ∧
        s.doc_ids.length = 1 + nonRel.length ∧
        s.targets = (rel :: nonRel).map
          (fun r => (r.targetValue config.targets).getD 0) ∧
        (rel :: nonRel).countP (fun r => decide (0 < r.relevance.getD 0)) = 1) := by
  constructor
  · intro hempty
    refine ⟨"a must be greater than 0 unless no samples are taken", ?_⟩
    simp only [RunDataset.getItem, hstrat]
    rw [if_pos hempty]
  · intro s hs
    simp only [RunDataset.getItem, hstrat] at hs
    by_cases hpool : group.filter (fun r => decide (0 < r.relevance.getD 0)) = []
    · rw [if_pos hpool] at hs
      cases hs
    · rw [if_neg hpool] at hs
      by_cases hneg : min ((config.sample_size : Int) - 1)
          ((group.filter
            (fun r => r.relevance.getD 0 == 0 && r.rank.isSome)).length : Int) < 0
      · rw [if_pos hneg] at hs
        cases hs
      · rw [if_neg hneg] at hs
        injection hs with hs'
        subst hs'
        have hn : (min ((config.sample_size : Int) - 1)
            ((group.filter
              (fun r => r.relevance.getD 0 == 0 && r.rank.isSome)).length : Int)).toNat
            ≤ (group.filter
              (fun r => r.relevance.getD 0 == 0 && r.rank.isSome)).length := by
          omega
        obtain ⟨hlen, hsub⟩ := hNR _ _ hn
        refine ⟨rfl, chooseRel (group.filter (fun r => decide (0 < r.relevance.getD 0))),
          chooseNonRel (group.filter (fun r => r.relevance.getD 0 == 0 && r.rank.isSome))
            (min ((config.sample_size : Int) - 1)
              ((group.filter
                (fun r => r.relevance.getD 0 == 0 && r.rank.isSome)).length : Int)).toNat,
          hRel _ hpool, hsub, ?_, rfl, by simp [Nat.add_comm], rfl, ?_⟩
        · rw [hlen]
          omega
        · rw [List.countP_cons]
          have hrelmem := hRel _ hpool
          have hrelpred := (List.mem_filter.mp hrelmem).2
          rw [hrelpred]
          have hzero : (chooseNonRel
              (group.filter (fun r => r.relevance.getD 0 == 0 && r.rank.isSome))
              (min ((config.sample_size : Int) - 1)
                ((group.filter
                  (fun r => r.relevance.getD 0 == 0 && r.rank.isSome)).length : Int)).toNat).countP
              (fun r => decide (0 < r.relevance.getD 0)) = 0 := by
            rw [List.countP_eq_zero]
            intro a ha
            have hamem := hsub.subset ha
            have hapred := (List.mem_filter.mp hamem).2
            rw [Bool.and_eq_true] at hapred
            have haz : a.relevance.getD 0 = 0 := by
              exact_mod_cast eq_of_beq hapred.1
            simp [haz]
          rw [hzero]
          simp

/-- A concrete draw-one function: take the head (a legitimate uniform draw
outcome). -/
def pickHead : List RunRow → RunRow := fun l => l.headD ⟨"", none, none, none⟩

/-- A concrete draw-n-without-replacement function: take the first n rows. -/
def pickTake : List RunRow → Nat → List RunRow := fun l n => l.take n

/-- A query group with one relevant doc (grade 1), one judged non-relevant doc
and one unjudged ranked doc. -/
def srGroup : List RunRow :=
  [⟨"d1", some 1, some 9, some 1⟩, ⟨"d2", some 2, some 8, some 0⟩,
    ⟨"d3", some 3, some 7, none⟩]

/-- A query group with no relevant document. -/
def srGroupNoRel : List RunRow := [⟨"d2", some 2, some 8, some 0⟩]

/-- A single_relevant configuration with sample_size 2. -/
def srConfig : RunDatasetConfig := ⟨.relevance, -1, 2, .single_relevant⟩

theorem pickHead_mem : ∀ l : List RunRow, l ≠ [] → pickHead l ∈ l := by
  intro l hl
  cases l with
  | nil => exact absurd rfl hl
  | cons a t => exact List.mem_cons_self a t

theorem pickTake_spec : ∀ (l : List RunRow) (n : Nat), n ≤ l.length →
    (pickTake l n).length = n ∧ List.Subperm (pickTake l n) l := by
  intro l n hn
  refine ⟨?_, (List.take_sublist n l).subperm⟩
  rw [pickTake, List.length_take]
  omega

/-- Witness for C4: on `srGroup` the accessor succeeds with exactly one
relevant document and one non-relevant one; on `srGroupNoRel` (no relevant
document) it raises. -/
theorem runDataset_getItem_single_relevant_witness :
    (srConfig.sampling_strategy = .single_relevant ∧
      (∀ l : List RunRow, l ≠ [] → pickHead l ∈ l) ∧
      (∀ (l : List RunRow) (n : Nat), n ≤ l.length →
        (pickTake l n).length = n ∧ List.Subperm (pickTake l n) l) ∧
      srGroupNoRel.filter (fun r => decide (0 < r.relevance.getD 0)) = []) ∧
    (∀ s, RunDataset.getItem "q" "t" (fun _ => "") srConfig pickHead pickTake
        srGroup = .ok s →
      s.relevance = none ∧
      ∃ rel nonRel,
        rel ∈ srGroup.filter (fun r => decide (0 < r.relevance.getD 0)) ∧
        List.Subperm nonRel (srGroup.filter
          (fun r => r.relevance.getD 0 == 0 && r.rank.isSome)) ∧
        nonRel.length = min (srConfig.sample_size - 1)
          (srGroup.filter
            (fun r => r.relevance.getD 0 == 0 && r.rank.isSome)).length ∧
        s.doc_ids = (rel :: nonRel).map (·.doc_id) ∧
        s.doc_ids.length = 1 + nonRel.length ∧
        s.targets = (rel :: nonRel).map
          (fun r => (r.targetValue srConfig.targets).getD 0) ∧
        (rel :: nonRel).countP (fun r => decide (0 < r.relevance.getD 0)) = 1) ∧
    (∃ e, RunDataset.getItem "q" "t" (fun _ => "") srConfig pickHead pickTake
        srGroupNoRel = .error e) :=
  ⟨⟨rfl, pickHead_mem, pickTake_spec, by decide⟩,
    (runDataset_getItem_single_relevant "q" "t" (fun _ => "") srConfig pickHead
      pickTake srGroup rfl pickHead_mem pickTake_spec).2,
    (runDataset_getItem_single_relevant "q" "t" (fun _ => "") srConfig pickHead
      pickTake srGroupNoRel rfl pickHead_mem pickTake_spec).1 (by decide)⟩

/-! ## `create_run_from_scores` (`lightning_utils/validation_utils.py`) -/

/-- One output row of the run table built by `create_run_from_scores`
(columns `query_id`, `q0 = 0`, `doc_id`, `score`, `system = "lightning_ir"`,
`rank`). -/
structure RunOutRow where
  query_id : String
  q0 : Nat
  doc_id : String
  score : ℚ
  system : String
  rank : Nat
deriving DecidableEq, Repr

/-- The flattened (query_id, doc_id) columns:
`np.array(query_ids).repeat(num_docs)` paired with the concatenated doc-id
tuples. -/
def flatQueryDoc (query_ids : List String) (doc_ids : List (List String)) :
    List (String × String) :=
  (query_ids.zip doc_ids).flatMap (fun p => p.2.map (fun d => (p.1, d)))

/-- `df.groupby("query_id")["score"].rank(ascending=False, method="first")` at
flattened row `k`: one plus the number of rows of the same query whose score
is strictly larger, or equal with an earlier position. -/
def groupRank (qd : List (String × String)) (scores : List ℚ) (k : Nat) : Nat :=
  1 + ((List.range qd.length).countP (fun l =>
    ((qd.getD l ("", "")).1 == (qd.getD k ("", "")).1) &&
      (decide (scores.getD k 0 < scores.getD l 0) ||
        (scores.getD l 0 == scores.getD k 0 && decide (l < k)))))

/-- The data frame of `create_run_from_scores` before sorting (lines 15-24):
query_id repeated per doc count, flattened doc ids and scores, constant
`q0`/`system` columns, and the group-wise first-method descending rank. -/
def runRows (query_ids : List String) (doc_ids : List (List String))
    (scores : List ℚ) : List RunOutRow :=
  (List.range (flatQueryDoc query_ids doc_ids).length).map (fun k =>
    ⟨((flatQueryDoc query_ids doc_ids).getD k ("", "")).1, 0,
      ((flatQueryDoc query_ids doc_ids).getD k ("", "")).2,
      scores.getD k 0, "lightning_ir",
      groupRank (flatQueryDoc query_ids doc_ids) scores k⟩)

/-- The sort key of `df.sort_values(["query_id", "rank"], key=key)`: the `key`
function replaces each query_id by its position in `query_ids` (the rank
column, being numeric, is unchanged by the replacement); rows compare
lexicographically by (query position, rank). -/
def sortKeyLe (query_ids : List String) (a b : RunOutRow) : Bool :=
  decide (query_ids.indexOf a.query_id < query_ids.indexOf b.query_id) ||
    (query_ids.indexOf a.query_id == query_ids.indexOf b.query_id &&
      decide (a.rank ≤ b.rank))

/-- `create_run_from_scores` (lines 10-30): build the rows, then sort by
(query position, rank).  The sort key is injective on the rows of a run with
distinct query ids, so any sorting algorithm yields pandas' order. -/
def create_run_from_scores (query_ids : List String)
    (doc_ids : List (List String)) (scores : List ℚ) : List RunOutRow :=
  (runRows query_ids doc_ids scores).mergeSort (sortKeyLe query_ids)

/-- Rank of position `k` within a single query block of `n` scores, under
descending score with ties broken by earlier position. -/
def localRank (n : Nat) (ss : List ℚ) (k : Nat) : Nat :=
  1 + ((List.range n).countP (fun l =>
    decide (ss.getD k 0 < ss.getD l 0) ||
      (ss.getD l 0 == ss.getD k 0 && decide (l < k))))

/-- The rows a single query block contributes to the run table. -/
def blockRows (q : String) (ds : List String) (ss : List ℚ) : List RunOutRow :=
  (List.range ds.length).map (fun j =>
    ⟨q, 0, ds.getD j "", ss.getD j 0, "lightning_ir",
      localRank ds.length ss j⟩)

theorem countP_lt_countP (l : List α) (p q : α → Bool)
    (hmono : ∀ x ∈ l, p x = true → q x = true) (x : α) (hx : x ∈ l)
    (hqx : q x = true) (hpx : p x = false) :
    l.countP p < l.countP q := by
  induction l with
  | nil => cases hx
  | cons a t ih =>
    rw [List.countP_cons, List.countP_cons]
    have hmono' : ∀ y ∈ t, p y = true → q y = true :=
      fun y hy => hmono y (List.mem_cons_of_mem a hy)
    rcases List.mem_cons.mp hx with rfl | hxt
    · have hle := List.countP_mono_left (l := t) (p := p) (q := q) hmono'
      simp [hpx, hqx]
      omega
    · have hlt := ih hmono' hxt
      have hpa := hmono a (List.mem_cons_self a t)
      cases hpq : p a
      · cases hq : q a <;> simp <;> omega
      · rw [hpa hpq]
        omega

theorem getD_append_left {α : Type} (l r : List α) (k : Nat) (dflt : α)
    (hk : k < l.length) : (l ++ r).getD k dflt = l.getD k dflt := by
  rw [List.getD_eq_getElem?_getD, List.getD_eq_getElem?_getD,
    List.getElem?_append_left hk]

theorem getD_append_right {α : Type} (l r : List α) (k : Nat) (dflt : α) :
    (l ++ r).getD (l.length + k) dflt = r.getD k dflt := by
  rw [List.getD_eq_getElem?_getD, List.getD_eq_getElem?_getD,
    List.getElem?_append_right (Nat.le_add_right _ _)]
  congr 2
  omega

theorem getD_drop {α : Type} (l : List α) (n k : Nat) (dflt : α) :
    (l.drop n).getD k dflt = l.getD (n + k) dflt := by
  rw [List.getD_eq_getElem?_getD, List.getD_eq_getElem?_getD,
    List.getElem?_drop]

theorem flatQueryDoc_cons (q : String) (qs : List String) (d : List String)
    (ds : List (List String)) :
    flatQueryDoc (q :: qs) (d :: ds)
      = d.map (fun x => (q, x)) ++ flatQueryDoc qs ds := by
  simp [flatQueryDoc]

theorem flatQueryDoc_nil_right (qs : List String) :
    flatQueryDoc qs [] = [] := by
  simp [flatQueryDoc]

theorem mem_flatQueryDoc_fst (qs : List String) (ds : List (List String))
    (p : String × String) (hp : p ∈ flatQueryDoc qs ds) : p.1 ∈ qs := by
  rw [flatQueryDoc, List.mem_flatMap] at hp
  obtain ⟨a, ha, hpa⟩ := hp
  rw [List.mem_map] at hpa
  obtain ⟨x, _, rfl⟩ := hpa
  exact (List.of_mem_zip ha).1

theorem flatQueryDoc_fst_ne (q : String) (qs : List String)
    (ds : List (List String)) (hq : q ∉ qs) (k : Nat)
    (hk : k < (flatQueryDoc qs ds).length) :
    ((flatQueryDoc qs ds).getD k ("", "")).1 ≠ q := by
  rw [List.getD_eq_getElem _ _ hk]
  intro hcontra
  exact hq (hcontra ▸ mem_flatQueryDoc_fst qs ds _ (List.getElem_mem hk))

theorem localRank_strict (n : Nat) (ss : List ℚ) (k k' : Nat) (hk : k < n)
    (hk' : k' < n)
    (h : ss.getD k' 0 < ss.getD k 0
      ∨ (ss.getD k 0 = ss.getD k' 0 ∧ k < k')) :
    localRank n ss k < localRank n ss k' := by
  unfold localRank
  apply Nat.add_lt_add_left
  apply countP_lt_countP (List.range n) _ _ ?_ k (List.mem_range.mpr hk) ?_ ?_
  · intro l _ hp
    simp only [Bool.or_eq_true, Bool.and_eq_true, decide_eq_true_eq,
      beq_iff_eq] at hp ⊢
    rcases h with h1 | ⟨heq, hkk⟩ <;> rcases hp with hp1 | ⟨hpe, hlk⟩
    · exact Or.inl (lt_trans h1 hp1)
    · exact Or.inl (hpe ▸ h1)
    · exact Or.inl (heq ▸ hp1)
    · exact Or.inr ⟨hpe.trans heq, lt_trans hlk hkk⟩
  · simp only [Bool.or_eq_true, Bool.and_eq_true, decide_eq_true_eq,
      beq_iff_eq]
    rcases h with h1 | ⟨heq, hkk⟩
    · exact Or.inl h1
    · exact Or.inr ⟨heq, hkk⟩
  · simp

theorem localRank_pos (n : Nat) (ss : List ℚ) (k : Nat) :
    1 ≤ localRank n ss k :=
  Nat.le_add_right 1 _

theorem localRank_le (n : Nat) (ss : List ℚ) (k : Nat) (hk : k < n) :
    localRank n ss k ≤ n := by
  unfold localRank
  have hpx : (decide (ss.getD k 0 < ss.getD k 0) ||
      (ss.getD k 0 == ss.getD k 0 && decide (k < k))) = false := by simp
  have h := countP_lt_countP (List.range n)
    (fun l => decide (ss.getD k 0 < ss.getD l 0) ||
      (ss.getD l 0 == ss.getD k 0 && decide (l < k)))
    (fun _ => true) (fun _ _ _ => rfl) k (List.mem_range.mpr hk) rfl hpx
  rw [List.countP_true, List.length_range] at h
  omega

theorem blockRanks_perm (n : Nat) (ss : List ℚ) :
    ((List.range n).map (localRank n ss)).Perm (List.range' 1 n) := by
  have hnd : ((List.range n).map (localRank n ss)).Nodup := by
    apply List.Nodup.map_on ?_ (List.nodup_range n)
    intro x hx y hy hxy
    rw [List.mem_range] at hx hy
    by_contra hne
    rcases lt_trichotomy (ss.getD x 0) (ss.getD y 0) with hlt | heq | hgt
    · have := localRank_strict n ss y x hy hx (Or.inl hlt)
      omega
    · rcases Nat.lt_or_ge x y with hxy2 | hge
      · have := localRank_strict n ss x y hx hy (Or.inr ⟨heq, hxy2⟩)
        omega
      · have hyx : y < x := by omega
        have := localRank_strict n ss y x hy hx (Or.inr ⟨heq.symm, hyx⟩)
        omega
    · have := localRank_strict n ss x y hx hy (Or.inl hgt)
      omega
  have hsubset : ((List.range n).map (localRank n ss)) ⊆ List.range' 1 n := by
    intro m hm
    rw [List.mem_map] at hm
    obtain ⟨k, hk, rfl⟩ := hm
    rw [List.mem_range] at hk
    have h1 := localRank_pos n ss k
    have h2 := localRank_le n ss k hk
    refine List.mem_range'.mpr ⟨localRank n ss k - 1, by omega, by omega⟩
  apply (List.subperm_of_subset hnd hsubset).perm_of_length_le
  simp

theorem groupRank_block (q : String) (qs : List String) (d : List String)
    (ds : List (List String)) (scores : List ℚ) (hq : q ∉ qs) (k : Nat)
    (hk : k < d.length) :
    groupRank (flatQueryDoc (q :: qs) (d :: ds)) scores k
      = localRank d.length scores k := by
  have hqd := flatQueryDoc_cons q qs d ds
  have hleft : ∀ l, l < d.length →
      (flatQueryDoc (q :: qs) (d :: ds)).getD l ("", "") = (q, d.getD l "") := by
    intro l hl
    rw [hqd, getD_append_left _ _ _ _ (by simpa using hl),
      List.getD_eq_getElem _ _ (by simpa using hl), List.getElem_map,
      List.getD_eq_getElem _ _ hl]
  have hright : ∀ l, (flatQueryDoc (q :: qs) (d :: ds)).getD (d.length + l) ("", "")
      = (flatQueryDoc qs ds).getD l ("", "") := by
    intro l
    rw [hqd]
    have h := getD_append_right (d.map (fun x => (q, x))) (flatQueryDoc qs ds)
      l ("", "")
    simpa using h
  have hlen : (flatQueryDoc (q :: qs) (d :: ds)).length
      = d.length + (flatQueryDoc qs ds).length := by
    rw [hqd]
    simp
  unfold groupRank localRank
  rw [hlen, List.range_add, List.countP_append, List.countP_map]
  have hc2 : ((List.range (flatQueryDoc qs ds).length).countP
      ((fun l => (((flatQueryDoc (q :: qs) (d :: ds)).getD l ("", "")).1
          == ((flatQueryDoc (q :: qs) (d :: ds)).getD k ("", "")).1) &&
        (decide (scores.getD k 0 < scores.getD l 0) ||
          (scores.getD l 0 == scores.getD k 0 && decide (l < k)))) ∘
        (fun x => d.length + x))) = 0 := by
    rw [List.countP_eq_zero]
    intro l hl
    rw [List.mem_range] at hl
    simp only [Function.comp_apply, hright, hleft k hk, Bool.and_eq_true,
      beq_iff_eq]
    intro hcontra
    exact flatQueryDoc_fst_ne q qs ds hq l hl hcontra.1
  rw [hc2, Nat.add_zero]
  congr 1
  apply List.countP_congr
  intro l hl
  rw [List.mem_range] at hl
  rw [hleft l hl, hleft k hk]
  simp

theorem groupRank_rest (q : String) (qs : List String) (d : List String)
    (ds : List (List String)) (scores : List ℚ) (hq : q ∉ qs) (k : Nat)
    (hk : k < (flatQueryDoc qs ds).length) :
    groupRank (flatQueryDoc (q :: qs) (d :: ds)) scores (d.length + k)
      = groupRank (flatQueryDoc qs ds) (scores.drop d.length) k := by
  have hqd := flatQueryDoc_cons q qs d ds
  have hleft : ∀ l, l < d.length →
      (flatQueryDoc (q :: qs) (d :: ds)).getD l ("", "") = (q, d.getD l "") := by
    intro l hl
    rw [hqd, getD_append_left _ _ _ _ (by simpa using hl),
      List.getD_eq_getElem _ _ (by simpa using hl), List.getElem_map,
      List.getD_eq_getElem _ _ hl]
  have hright : ∀ l, (flatQueryDoc (q :: qs) (d :: ds)).getD (d.length + l) ("", "")
      = (flatQueryDoc qs ds).getD l ("", "") := by
    intro l
    rw [hqd]
    have h := getD_append_right (d.map (fun x => (q, x))) (flatQueryDoc qs ds)
      l ("", "")
    simpa using h
  have hlen : (flatQueryDoc (q :: qs) (d :: ds)).length
      = d.length + (flatQueryDoc qs ds).length := by
    rw [hqd]
    simp
  unfold groupRank
  rw [hlen, List.range_add, List.countP_append, List.countP_map]
  have hc1 : ((List.range d.length).countP
      (fun l => (((flatQueryDoc (q :: qs) (d :: ds)).getD l ("", "")).1
          == ((flatQueryDoc (q :: qs) (d :: ds)).getD (d.length + k) ("", "")).1) &&
        (decide (scores.getD (d.length + k) 0 < scores.getD l 0) ||
          (scores.getD l 0 == scores.getD (d.length + k) 0
            && decide (l < d.length + k))))) = 0 := by
    rw [List.countP_eq_zero]
    intro l hl
    rw [List.mem_range] at hl
    simp only [hright k, hleft l hl, Bool.and_eq_true, beq_iff_eq]
    intro hcontra
    exact flatQueryDoc_fst_ne q qs ds hq k hk hcontra.1.symm
  rw [hc1, Nat.zero_add]
  congr 1
  apply List.countP_congr
  intro l hl
  rw [List.mem_range] at hl
  simp only [Function.comp_apply]
  rw [hright l, hright k]
  have hdk : (scores.drop d.length).getD k 0 = scores.getD (d.length + k) 0 :=
    getD_drop _ _ _ _
  have hdl : (scores.drop d.length).getD l 0 = scores.getD (d.length + l) 0 :=
    getD_drop _ _ _ _
  rw [hdk, hdl]
  have hlt : (decide (d.length + l < d.length + k) : Bool) = decide (l < k) := by
    simp
  rw [hlt]

theorem runRows_cons (q : String) (qs : List String) (d : List String)
    (ds : List (List String)) (scores : List ℚ) (hq : q ∉ qs) :
    runRows (q :: qs) (d :: ds) scores
      = blockRows q d scores ++ runRows qs ds (scores.drop d.length) := by
  have hqd := flatQueryDoc_cons q qs d ds
  have hleft : ∀ l, l < d.length →
      (flatQueryDoc (q :: qs) (d :: ds)).getD l ("", "") = (q, d.getD l "") := by
    intro l hl
    rw [hqd, getD_append_left _ _ _ _ (by simpa using hl),
      List.getD_eq_getElem _ _ (by simpa using hl), List.getElem_map,
      List.getD_eq_getElem _ _ hl]
  have hright : ∀ l, (flatQueryDoc (q :: qs) (d :: ds)).getD (d.length + l) ("", "")
      = (flatQueryDoc qs ds).getD l ("", "") := by
    intro l
    rw [hqd]
    have h := getD_append_right (d.map (fun x => (q, x))) (flatQueryDoc qs ds)
      l ("", "")
    simpa using h
  have hlen : (flatQueryDoc (q :: qs) (d :: ds)).length
      = d.length + (flatQueryDoc qs ds).length := by
    rw [hqd]
    simp
  unfold runRows blockRows
  rw [hlen, List.range_add, List.map_append, List.map_map]
  congr 1
  · apply List.map_congr_left
    intro j hj
    rw [List.mem_range] at hj
    simp only [hleft j hj]
    rw [groupRank_block q qs d ds scores hq j hj]
  · apply List.map_congr_left
    intro k hk
    rw [List.mem_range] at hk
    simp only [Function.comp_apply, hright k]
    rw [groupRank_rest q qs d ds scores hq k hk]
    congr 1
    exact (getD_drop _ _ _ _).symm

theorem runRows_query_mem (qs : List String) (ds : List (List String))
    (ss : List ℚ) (r : RunOutRow) (hr : r ∈ runRows qs ds ss) :
    r.query_id ∈ qs := by
  rw [runRows, List.mem_map] at hr
  obtain ⟨k, hk, rfl⟩ := hr
  rw [List.mem_range] at hk
  rw [List.getD_eq_getElem _ _ hk]
  exact mem_flatQueryDoc_fst qs ds _ (List.getElem_mem hk)

theorem blockRows_ranks (q : String) (d : List String) (ss : List ℚ) :
    (blockRows q d ss).map (·.rank)
      = (List.range d.length).map (localRank d.length ss) := by
  simp [blockRows, List.map_map]

theorem runRows_nil_docs (qs : List String) (ss : List ℚ) :
    runRows qs [] ss = [] := by
  simp [runRows, flatQueryDoc]

theorem blockRows_query (q : String) (d : List String) (ss : List ℚ)
    (r : RunOutRow) (hr : r ∈ blockRows q d ss) : r.query_id = q := by
  rw [blockRows, List.mem_map] at hr
  obtain ⟨j, _, rfl⟩ := hr
  rfl

theorem runRows_filter_ranks_perm (query_ids : List String)
    (doc_ids : List (List String)) (scores : List ℚ)
    (hnd : query_ids.Nodup) (qi : Nat) (hqi : qi < query_ids.length) :
    (((runRows query_ids doc_ids scores).filter
        (fun r => r.query_id == query_ids.getD qi "")).map (·.rank)).Perm
      (List.range' 1 ((doc_ids.getD qi []).length)) := by
  induction query_ids generalizing doc_ids scores qi with
  | nil => cases hqi
  | cons q qs ih =>
    cases doc_ids with
    | nil =>
      rw [runRows_nil_docs]
      have hz : (([] : List (List String)).getD qi []).length = 0 := by
        cases qi <;> rfl
      rw [hz]
      simp
    | cons d ds =>
      have hq : q ∉ qs := (List.nodup_cons.mp hnd).1
      have hnd' : qs.Nodup := (List.nodup_cons.mp hnd).2
      rw [runRows_cons q qs d ds scores hq, List.filter_append, List.map_append]
      cases qi with
      | zero =>
        have hfb : (blockRows q d scores).filter
            (fun r => r.query_id == (q :: qs).getD 0 "") = blockRows q d scores := by
          rw [List.filter_eq_self]
          intro r hr
          rw [blockRows_query q d scores r hr]
          exact beq_self_eq_true q
        have hfr : (runRows qs ds (scores.drop d.length)).filter
            (fun r => r.query_id == (q :: qs).getD 0 "") = [] := by
          rw [List.filter_eq_nil_iff]
          intro r hr
          have hmem := runRows_query_mem qs ds _ r hr
          simp only [List.getD_cons_zero, beq_iff_eq]
          intro hcontra
          exact hq (hcontra ▸ hmem)
        rw [hfb, hfr]
        simp only [List.map_nil, List.append_nil]
        rw [blockRows_ranks]
        exact blockRanks_perm d.length scores
      | succ qi' =>
        have hqi' : qi' < qs.length := by simpa using hqi
        have hne : qs.getD qi' "" ≠ q := by
          rw [List.getD_eq_getElem _ _ hqi']
          intro hcontra
          exact hq (hcontra ▸ List.getElem_mem hqi')
        have hfb : (blockRows q d scores).filter
            (fun r => r.query_id == (q :: qs).getD (qi' + 1) "") = [] := by
          rw [List.filter_eq_nil_iff]
          intro r hr
          rw [blockRows_query q d scores r hr]
          simp only [List.getD_cons_succ, beq_iff_eq]
          exact fun hcontra => hne hcontra.symm
        rw [hfb]
        simp only [List.map_nil, List.nil_append, List.getD_cons_succ]
        exact ih ds (scores.drop d.length) hnd' qi' hqi'

theorem groupRank_strict (qd : List (String × String)) (scores : List ℚ)
    (k k' : Nat) (hk : k < qd.length)
    (hq : (qd.getD k ("", "")).1 = (qd.getD k' ("", "")).1)
    (h : scores.getD k' 0 < scores.getD k 0
      ∨ (scores.getD k 0 = scores.getD k' 0 ∧ k < k')) :
    groupRank qd scores k < groupRank qd scores k' := by
  unfold groupRank
  apply Nat.add_lt_add_left
  apply countP_lt_countP (List.range qd.length) _ _ ?_ k
    (List.mem_range.mpr hk) ?_ ?_
  · intro l _ hp
    simp only [Bool.or_eq_true, Bool.and_eq_true, decide_eq_true_eq,
      beq_iff_eq] at hp ⊢
    obtain ⟨hpq, hps⟩ := hp
    refine ⟨hpq.trans hq, ?_⟩
    rcases h with h1 | ⟨heq, hkk⟩ <;> rcases hps with hp1 | ⟨hpe, hlk⟩
    · exact Or.inl (lt_trans h1 hp1)
    · exact Or.inl (hpe ▸ h1)
    · exact Or.inl (heq ▸ hp1)
    · exact Or.inr ⟨hpe.trans heq, lt_trans hlk hkk⟩
  · simp only [Bool.or_eq_true, Bool.and_eq_true, decide_eq_true_eq,
      beq_iff_eq]
    refine ⟨hq, ?_⟩
    rcases h with h1 | ⟨heq, hkk⟩
    · exact Or.inl h1
    · exact Or.inr ⟨heq, hkk⟩
  · simp

theorem sortKeyLe_trans (query_ids : List String) : ∀ a b c : RunOutRow,
    sortKeyLe query_ids a b → sortKeyLe query_ids b c →
      sortKeyLe query_ids a c := by
  intro a b c hab hbc
  simp only [sortKeyLe, Bool.or_eq_true, Bool.and_eq_true, decide_eq_true_eq,
    beq_iff_eq] at hab hbc ⊢
  omega

theorem sortKeyLe_total (query_ids : List String) : ∀ a b : RunOutRow,
    sortKeyLe query_ids a b || sortKeyLe query_ids b a := by
  intro a b
  simp only [sortKeyLe, Bool.or_eq_true, Bool.and_eq_true, decide_eq_true_eq,
    beq_iff_eq]
  omega

/-- Default row used with `List.getD` on run tables. -/
def dfltRow : RunOutRow := ⟨"", 0, "", 0, "", 0⟩

theorem runRows_length (qs : List String) (ds : List (List String))
    (ss : List ℚ) :
    (runRows qs ds ss).length = (flatQueryDoc qs ds).length := by
  simp [runRows]

theorem runRows_getD (qs : List String) (ds : List (List String))
    (ss : List ℚ) (k : Nat) (hk : k < (flatQueryDoc qs ds).length) :
    (runRows qs ds ss).getD k dfltRow
      = ⟨((flatQueryDoc qs ds).getD k ("", "")).1, 0,
          ((flatQueryDoc qs ds).getD k ("", "")).2, ss.getD k 0,
          "lightning_ir", groupRank (flatQueryDoc qs ds) ss k⟩ := by
  have hk' : k < (runRows qs ds ss).length := by
    rw [runRows_length]
    exact hk
  rw [List.getD_eq_getElem _ _ hk']
  simp only [runRows, List.getElem_map, List.getElem_range]

/-- C10: for distinct query ids, aligned per-query doc-id tuples and one score
per flattened document, the run table built by `create_run_from_scores` is a
permutation of the constructed rows in which (a) each query's rank column is a
permutation of 1..(that query's document count), (b) the rows are sorted by
the given query order and then ascending rank, and (c) within a query a
strictly higher score always gets a strictly smaller rank and equal scores are
ranked by earlier flattened position first. -/
theorem create_run_from_scores_correct (query_ids : List String)
    (doc_ids : List (List String)) (scores : List ℚ)
    (hnd : query_ids.Nodup) (hlen : query_ids.length = doc_ids.length)
    (hs : scores.length = (doc_ids.map List.length).sum) :
    (create_run_from_scores query_ids doc_ids scores).Perm
        (runRows query_ids doc_ids scores) ∧
    List.Pairwise (fun a b => sortKeyLe query_ids a b = true)
      (create_run_from_scores query_ids doc_ids scores) ∧
    (∀ qi, qi < query_ids.length →
      (((create_run_from_scores query_ids doc_ids scores).filter
          (fun r => r.query_id == query_ids.getD qi "")).map (·.rank)).Perm
        (List.range' 1 ((doc_ids.getD qi []).length))) ∧
    (∀ k k', k < (runRows query_ids doc_ids scores).length →
      k' < (runRows query_ids doc_ids scores).length →
      ((runRows query_ids doc_ids scores).getD k dfltRow).query_id
        = ((runRows query_ids doc_ids scores).getD k' dfltRow).query_id →
      (((runRows query_ids doc_ids scores).getD k' dfltRow).score
          < ((runRows query_ids doc_ids scores).getD k dfltRow).score →
        ((runRows query_ids doc_ids scores).getD k dfltRow).rank
          < ((runRows query_ids doc_ids scores).getD k' dfltRow).rank) ∧
      (((runRows query_ids doc_ids scores).getD k dfltRow).score
          = ((runRows query_ids doc_ids scores).getD k' dfltRow).score →
        k < k' →
        ((runRows query_ids doc_ids scores).getD k dfltRow).rank
          < ((runRows query_ids doc_ids scores).getD k' dfltRow).rank)) := by
  refine ⟨List.mergeSort_perm _ _, ?_, ?_, ?_⟩
  · exact List.sorted_mergeSort (sortKeyLe_trans query_ids)
      (sortKeyLe_total query_ids) (runRows query_ids doc_ids scores)
  · intro qi hqi
    have hperm : (create_run_from_scores query_ids doc_ids scores).Perm
        (runRows query_ids doc_ids scores) := List.mergeSort_perm _ _
    exact ((hperm.filter _).map _).trans
      (runRows_filter_ranks_perm query_ids doc_ids scores hnd qi hqi)
  · intro k k' hk hk' hq
    rw [runRows_length] at hk hk'
    rw [runRows_getD query_ids doc_ids scores k hk,
      runRows_getD query_ids doc_ids scores k' hk'] at hq ⊢
    constructor
    · intro hscore
      exact groupRank_strict (flatQueryDoc query_ids doc_ids) scores k k' hk hq
        (Or.inl hscore)
    · intro hscore hkk
      exact groupRank_strict (flatQueryDoc query_ids doc_ids) scores k k' hk hq
        (Or.inr ⟨hscore, hkk⟩)

/-- Concrete run input: two queries, doc counts 2 and 1. -/
def w10q : List String := ["q1", "q2"]

/-- Concrete per-query doc ids. -/
def w10d : List (List String) := [["d1", "d2"], ["d3"]]

/-- Concrete flattened scores. -/
def w10s : List ℚ := [1, 2, 5]

/-- Witness for C10: the concrete two-query run input satisfies the
hypotheses, and the conclusion holds at it. -/
theorem create_run_from_scores_correct_witness :
    (w10q.Nodup ∧ w10q.length = w10d.length ∧
      w10s.length = (w10d.map List.length).sum) ∧
    ((create_run_from_scores w10q w10d w10s).Perm (runRows w10q w10d w10s) ∧
    List.Pairwise (fun a b => sortKeyLe w10q a b = true)
      (create_run_from_scores w10q w10d w10s) ∧
    (∀ qi, qi < w10q.length →
      (((create_run_from_scores w10q w10d w10s).filter
          (fun r => r.query_id == w10q.getD qi "")).map (·.rank)).Perm
        (List.range' 1 ((w10d.getD qi []).length))) ∧
    (∀ k k', k < (runRows w10q w10d w10s).length →
      k' < (runRows w10q w10d w10s).length →
      ((runRows w10q w10d w10s).getD k dfltRow).query_id
        = ((runRows w10q w10d w10s).getD k' dfltRow).query_id →
      (((runRows w10q w10d w10s).getD k' dfltRow).score
          < ((runRows w10q w10d w10s).getD k dfltRow).score →
        ((runRows w10q w10d w10s).getD k dfltRow).rank
          < ((runRows w10q w10d w10s).getD k' dfltRow).rank) ∧
      (((runRows w10q w10d w10s).getD k dfltRow).score
          = ((runRows w10q w10d w10s).getD k' dfltRow).score →
        k < k' →
        ((runRows w10q w10d w10s).getD k dfltRow).rank
          < ((runRows w10q w10d w10s).getD k' dfltRow).rank))) :=
  ⟨⟨by decide, by decide, by decide⟩,
    create_run_from_scores_correct w10q w10d w10s (by decide) (by decide)
      (by decide)⟩
